import Mathlib

/-!
# Verification of the babysh job-control engine (src/babysh.c)

A shallow embedding of the process-lifecycle and job-control engine of
`babysh.c`: the redirection resolver (`isInputRedirected`, `isOutputRedirected`,
`isBackground`), the status builtin (`cmdStatus`), the launcher (`cmdExecute`),
and the reap sweep at the top of `main`'s loop.

Modelling conventions:
* The job table `bgOpen` is a `List Int`; in the C source a slot holds `-1`
  (Unused sentinel, set by `main`'s init loop), `0` (`IS_PROCESS_FINISHED`,
  tombstone) or a positive pid (Running).
* Syscall results (`open`, `fork`, `waitpid`) are supplied by an `Env` record:
  the embedding is the parent shell's view, parameterised by what the kernel
  returns.  Uninitialized C locals (`inputFile`/`outputFile` when the
  corresponding redirection is requested in a background command, and
  `wpid`/`waitStatus` on the background path) are modelled as arbitrary junk
  values carried in the `Env`, mirroring the indeterminate stack contents.
* Observable behaviour (stdout writes via `printf`, `perror` calls, the `fork`
  call site, the blocking `waitpid`, and `open` call targets) is an event trace.
* `wait`-status decoding follows the glibc macros on Linux:
  `WIFEXITED(s) = (s & 0x7f) == 0`, `WEXITSTATUS(s) = (s >> 8) & 0xff`,
  `WIFSIGNALED(s) = ((s & 0x7f) + 1) >> 1 > 0`, `WTERMSIG(s) = s & 0x7f`.
-/

namespace BabySh

/-- `#define MAX_PROCESSES 100` -/
def MAX_PROCESSES : Nat := 100

/-- `EXIT_FAILURE` on POSIX. -/
def EXIT_FAILURE : Int := 1

/-- `#define IS_PROCESS_FINISHED 0` — the tombstone value of a job slot. -/
def IS_PROCESS_FINISHED : Int := 0

/-- `WIFEXITED(s)`: low seven bits of the wait status are zero. -/
def wifexited (s : Nat) : Bool := s % 128 == 0

/-- `WEXITSTATUS(s)`: bits 8..15 of the wait status. -/
def wexitstatus (s : Nat) : Nat := (s / 256) % 256

/-- `WIFSIGNALED(s)`: `((s & 0x7f) + 1) >> 1 > 0`. -/
def wifsignaled (s : Nat) : Bool := (s % 128 + 1) / 2 != 0

/-- `WTERMSIG(s)`: low seven bits of the wait status. -/
def wtermsig (s : Nat) : Nat := s % 128

/-- Shell state mutated by the engine: the `status` and `termination`
variables of `main` and the background job table `bgOpen`. -/
structure ShellState where
  status : Int
  termination : Int
  bgOpen : List Int
deriving Repr, DecidableEq

/-- The state right after `main`'s initialisation: `status = 0`,
`termination = 0`, every `bgOpen` slot set to `-1`. -/
def initialState : ShellState :=
  { status := 0, termination := 0, bgOpen := List.replicate MAX_PROCESSES (-1) }

/-- Observable actions of the engine, in program order. -/
inductive Event where
  /-- a `printf` to stdout (the exact string written) -/
  | out (s : String)
  /-- a `perror` call (the argument string) -/
  | err (s : String)
  /-- an `open` call: the path argument (`none` for a NULL pointer) and
  whether the open is for writing -/
  | openCall (path : Option String) (forWrite : Bool)
  /-- the `fork()` call site was executed -/
  | forkEv
  /-- a blocking `waitpid(pid, …, 0)` on the given pid -/
  | waitedFg (pid : Int)
deriving Repr, DecidableEq

/-! ## Redirection Resolver (isInputRedirected / isOutputRedirected / isBackground) -/

/-- `isInputRedirected`: scans the argument vector for a token equal to `"<"`. -/
def isInputRedirected (args : List String) : Bool :=
  args.contains "<"

/-- `isOutputRedirected`: scans the argument vector for a token equal to `">"`. -/
def isOutputRedirected (args : List String) : Bool :=
  args.contains ">"

/-- `isBackground`: scans the argument vector for a token equal to `"&"`
(and, in C, overwrites that cell with `NULL`). -/
def isBackground (args : List String) : Bool :=
  args.contains "&"

/-- Index of the first `"&"` token, i.e. the cell `isBackground` nulls out. -/
def ampIndex (args : List String) : Option Nat :=
  args.findIdx? (fun a => a == "&")

/-- The argument array cell at index `i` as read *after* `isBackground` ran:
the first `"&"` cell has been overwritten with `NULL` (`none`); cells past the
end of the vector are the terminating `NULL`. -/
def argAt (args : List String) (i : Nat) : Option String :=
  if ampIndex args = some i then none else args[i]?

/-- The argument vector as scanned up to the first `NULL` after `isBackground`
ran: truncated at the first `"&"`.  This is what `execvp` receives. -/
def argsAfterBg (args : List String) : List String :=
  args.takeWhile (fun a => a != "&")

/-- The argv the child passes to `exec`: `execlp(args[0], args[0], NULL)`
(name only) when any redirection was requested, `execvp(args[0], args)`
(the full vector up to the first `NULL`) otherwise. -/
def childArgv (args : List String) : List String :=
  if isInputRedirected args || isOutputRedirected args then
    match argAt args 0 with
    | some p => [p]
    | none => []
  else
    argsAfterBg args

/-! ## Status Tracker (cmdStatus) -/

/-- `cmdStatus`: report the termination signal when `termination > 0`,
otherwise the exit status. -/
def cmdStatus (status termination : Int) : List Event :=
  if termination > 0 then
    [Event.out ("terminated by signal " ++ toString termination ++ "\n")]
  else
    [Event.out ("exit value " ++ toString status ++ "\n")]

/-! ## Process Launcher (cmdExecute), parent view -/

/-- Kernel-supplied results of the syscalls `cmdExecute` may perform, plus the
junk contents of its uninitialized locals. -/
structure Env where
  /-- result of `open("/dev/null", O_RDONLY)` -/
  devNullRd : Int
  /-- result of `open("/dev/null", O_WRONLY)` -/
  devNullWr : Int
  /-- result of `open(args[2], O_RDONLY)` -/
  inOpen : Int
  /-- result of `open(args[2], O_WRONLY|O_CREAT|O_TRUNC, 0644)` -/
  outOpen : Int
  /-- result of `fork()` in the parent: `-1` on failure, the child pid (> 0)
  on success -/
  forkPid : Int
  /-- result of the blocking `waitpid(cpid, &waitStatus, 0)`:
  the returned pid and the stored wait status -/
  fgWait : Int × Nat
  /-- junk in the uninitialized `inputFile` local -/
  junkIn : Int
  /-- junk in the uninitialized `outputFile` local -/
  junkOut : Int
  /-- junk in the uninitialized `wpid` local -/
  junkWpid : Int
  /-- junk in the uninitialized `waitStatus` local -/
  junkWstat : Nat
deriving Repr, DecidableEq

/-- The value of `inputFile` at the `/dev/null` check inside the
`runInBackground` block: freshly opened when input is not redirected,
otherwise still uninitialized junk. -/
def bgInputFd (env : Env) (args : List String) : Int :=
  if isInputRedirected args then env.junkIn else env.devNullRd

/-- The value of `outputFile` at the `/dev/null` check inside the
`runInBackground` block. -/
def bgOutputFd (env : Env) (args : List String) : Int :=
  if isOutputRedirected args then env.junkOut else env.devNullWr

/-- The `/dev/null` block's failure check
`if (inputFile == -1 || outputFile == -1)`, only reached for background
commands. -/
def devNullCheckFails (env : Env) (args : List String) : Bool :=
  isBackground args && (bgInputFd env args == -1 || bgOutputFd env args == -1)

/-- The input-redirection open failed: `redirectInput && inputFile == -1`. -/
def inOpenFails (env : Env) (args : List String) : Bool :=
  isInputRedirected args && env.inOpen == -1

/-- The output-redirection open failed: `redirectOutput && outputFile == -1`. -/
def outOpenFails (env : Env) (args : List String) : Bool :=
  isOutputRedirected args && env.outOpen == -1

/-- Any of `cmdExecute`'s three pre-fork open checks fails (each aborts the
command with an early `return`). -/
def openFailure (env : Env) (args : List String) : Bool :=
  devNullCheckFails env args || inOpenFails env args || outOpenFails env args

/-- The string `printf("%s", args[2])` renders: the cell's contents, or glibc's
`"(null)"` for a NULL pointer. -/
def pathStr (args : List String) : String :=
  (argAt args 2).getD "(null)"

/-- The `open("/dev/null", …)` calls of the background block (performed only
for a background command, and only for the non-redirected directions). -/
def bgNullEvs (args : List String) : List Event :=
  if isBackground args then
    (if !isInputRedirected args then [Event.openCall (some "/dev/null") false] else [])
      ++ (if !isOutputRedirected args then [Event.openCall (some "/dev/null") true] else [])
  else []

/-- The `open(args[2], O_RDONLY)` call for input redirection. -/
def inRedirEvs (args : List String) : List Event :=
  if isInputRedirected args then [Event.openCall (argAt args 2) false] else []

/-- The `open(args[2], O_WRONLY|O_CREAT|O_TRUNC, 0644)` call for output
redirection. -/
def outRedirEvs (args : List String) : List Event :=
  if isOutputRedirected args then [Event.openCall (argAt args 2) true] else []

/-- The `wpid == -1` / `WIFEXITED` / `WIFSIGNALED` block shared at the bottom
of `cmdExecute`'s parent branch (lines 528–549). -/
def waitReport (wpid : Int) (wstat : Nat) (st : ShellState) :
    ShellState × List Event :=
  let p1 : ShellState × List Event :=
    if wpid == -1 then
      ({ st with status := EXIT_FAILURE }, [Event.err "wait failed"])
    else (st, [])
  let p2 : ShellState :=
    if wifexited wstat then
      { p1.1 with status := (wexitstatus wstat : Int), termination := 0 }
    else p1.1
  if wifsignaled wstat then
    ({ p2 with termination := (wtermsig wstat : Int) },
      p1.2 ++ [Event.out ("terminated by signal " ++ toString (wtermsig wstat) ++ "\n")])
  else (p2, p1.2)

/-- The background record loop
`while (bgCounter < MAX_PROCESSES) { if (bgOpen[bgCounter] < 1) { … return; } }`:
`some` with the updated table when the `return` is taken, `none` when the loop
exhausts the table (and control falls through to the shared wait code). -/
def recordBg (bg : List Int) (cpid : Int) : Option (List Int) :=
  match bg with
  | [] => none
  | x :: xs =>
    if x < 1 then some (cpid :: xs)
    else (recordBg xs cpid).map (fun ys => x :: ys)

/-- The parent-side code after `fork()` (lines 437–550): fork-failure report,
background record-and-return, or foreground blocking wait, with the shared
wait-report block at the bottom. -/
def parentPhase (env : Env) (args : List String) (st : ShellState) :
    ShellState × List Event :=
  if env.forkPid == -1 then
    (st, [Event.err "fork failed"])
  else if isBackground args then
    let launch := Event.out ("background pid is " ++ toString env.forkPid ++ "\n")
    match recordBg st.bgOpen env.forkPid with
    | some bg2 => ({ st with bgOpen := bg2 }, [launch])
    | none =>
      let r := waitReport env.junkWpid env.junkWstat st
      (r.1, launch :: r.2)
  else
    let r := waitReport env.fgWait.1 env.fgWait.2 st
    (r.1, Event.waitedFg env.forkPid :: r.2)

/-- `cmdExecute` as observed by the shell process: resolve redirection, open
descriptors (aborting with a reported error and `status = EXIT_FAILURE` if an
open fails), fork, then record a background job or wait for a foreground one. -/
def cmdExecute (env : Env) (args : List String) (st : ShellState) :
    ShellState × List Event :=
  if devNullCheckFails env args then
    ({ st with status := EXIT_FAILURE },
      bgNullEvs args ++ [Event.out "cannot open /dev/null\n"])
  else if inOpenFails env args then
    ({ st with status := EXIT_FAILURE },
      bgNullEvs args ++ inRedirEvs args
        ++ [Event.out ("File Error: cannot open " ++ pathStr args ++ " for input\n")])
  else if outOpenFails env args then
    ({ st with status := EXIT_FAILURE },
      bgNullEvs args ++ inRedirEvs args ++ outRedirEvs args
        ++ [Event.out ("File Error: cannot open " ++ pathStr args ++ " for ouput\n")])
  else
    let r := parentPhase env args st
    (r.1, bgNullEvs args ++ inRedirEvs args ++ outRedirEvs args
      ++ [Event.forkEv] ++ r.2)

/-! ## Reaper — the sweep at the top of `main`'s loop (lines 71–111) -/

/-- The two `printf`s reporting one finished background job (lines 87–101):
the prefix, then the exit value and/or the termination signal. -/
def bgDoneMsgs (curPid : Int) (bgStatus : Nat) : List Event :=
  Event.out ("background pid " ++ toString curPid ++ " is done: ")
    :: ((if wifexited bgStatus then
          [Event.out ("exit value " ++ toString (wexitstatus bgStatus) ++ "\n")]
        else [])
      ++ (if wifsignaled bgStatus then
            [Event.out ("terminated by signal " ++ toString (wtermsig bgStatus) ++ "\n")]
          else []))

/-- One iteration of the sweep body on a non-sentinel slot: skip tombstones,
otherwise call `waitpid(curPid, &bgStatus, WNOHANG)` (the oracle `w`) and
handle failure / completion / still-running.  Returns the new slot value, the
new `status`, and the events. -/
def reapStep (w : Int → Int × Nat) (slot : Int) (status : Int) :
    Int × Int × List Event :=
  if slot == IS_PROCESS_FINISHED then (slot, status, [])
  else
    let r := w slot
    if r.1 == -1 then (slot, EXIT_FAILURE, [Event.err "wait failed\n"])
    else if r.1 > 0 then (IS_PROCESS_FINISHED, status, bgDoneMsgs slot r.2)
    else (slot, status, [])

/-- The sweep loop `while (bgOpen[bgCounter] != -1) { … bgCounter++; }`:
scan from the head, stop at the first `-1`. -/
def reapSweep (w : Int → Int × Nat) (bg : List Int) (status : Int) :
    List Int × Int × List Event :=
  match bg with
  | [] => ([], status, [])
  | slot :: rest =>
    if slot == -1 then (slot :: rest, status, [])
    else
      let s := reapStep w slot status
      let t := reapSweep w rest s.2.1
      (s.1 :: t.1, t.2.1, s.2.2 ++ t.2.2)

/-- The whole per-prompt reap pass on the shell state.  `termination` is not
mentioned by the sweep in the source and passes through. -/
def reapOnce (w : Int → Int × Nat) (st : ShellState) : ShellState × List Event :=
  let r := reapSweep w st.bgOpen st.status
  ({ st with bgOpen := r.1, status := r.2.1 }, r.2.2)

/-! ## Basic lemmas about the embedding -/

theorem wifexited_not_signaled (s : Nat) (h : wifexited s = true) :
    wifsignaled s = false := by
  have h0 : s % 128 = 0 := by simpa [wifexited] using h
  simp [wifsignaled, h0]

theorem wifsignaled_not_exited (s : Nat) (h : wifsignaled s = true) :
    wifexited s = false := by
  by_contra hc
  rw [Bool.not_eq_false] at hc
  rw [wifexited_not_signaled s hc] at h
  exact Bool.false_ne_true h

theorem openFailure_false_parts (env : Env) (args : List String)
    (h : openFailure env args = false) :
    devNullCheckFails env args = false ∧ inOpenFails env args = false ∧
      outOpenFails env args = false := by
  have h' : (devNullCheckFails env args = false ∧ inOpenFails env args = false) ∧
      outOpenFails env args = false := by simpa [openFailure] using h
  exact ⟨h'.1.1, h'.1.2, h'.2⟩

theorem cmdExecute_success (env : Env) (args : List String) (st : ShellState)
    (h : openFailure env args = false) :
    cmdExecute env args st =
      ((parentPhase env args st).1,
        bgNullEvs args ++ inRedirEvs args ++ outRedirEvs args
          ++ [Event.forkEv] ++ (parentPhase env args st).2) := by
  obtain ⟨h1, h2, h3⟩ := openFailure_false_parts env args h
  simp [cmdExecute, h1, h2, h3]

theorem mem_bgNullEvs (args : List String) (e : Event) (h : e ∈ bgNullEvs args) :
    ∃ p b, e = Event.openCall p b := by
  unfold bgNullEvs at h
  split at h
  · rcases List.mem_append.mp h with h | h <;>
      · split at h <;> simp at h
        exact ⟨_, _, h⟩
  · simp at h

theorem mem_inRedirEvs (args : List String) (e : Event) (h : e ∈ inRedirEvs args) :
    ∃ p b, e = Event.openCall p b := by
  unfold inRedirEvs at h
  split at h
  · simp at h; exact ⟨_, _, h⟩
  · simp at h

theorem mem_outRedirEvs (args : List String) (e : Event) (h : e ∈ outRedirEvs args) :
    ∃ p b, e = Event.openCall p b := by
  unfold outRedirEvs at h
  split at h
  · simp at h; exact ⟨_, _, h⟩
  · simp at h

theorem mem_preForkEvs (args : List String) (e : Event)
    (h : e ∈ bgNullEvs args ++ inRedirEvs args ++ outRedirEvs args) :
    ∃ p b, e = Event.openCall p b := by
  rcases List.mem_append.mp h with h | h
  · rcases List.mem_append.mp h with h | h
    · exact mem_bgNullEvs args e h
    · exact mem_inRedirEvs args e h
  · exact mem_outRedirEvs args e h

theorem recordBg_eq_some (cpid : Int) (bg : List Int) (hex : ∃ x ∈ bg, x < 1) :
    ∃ i, ∃ hi : i < bg.length,
      (∀ j, ∀ hj : j < bg.length, j < i → ¬ bg.get ⟨j, hj⟩ < 1) ∧
      bg.get ⟨i, hi⟩ < 1 ∧
      recordBg bg cpid = some (bg.set i cpid) := by
  induction bg with
  | nil => simp at hex
  | cons a as ih =>
    by_cases ha : a < 1
    · refine ⟨0, by simp, ?_, by simpa using ha, by simp [recordBg, ha]⟩
      intro j hj hj0
      omega
    · have hex' : ∃ y ∈ as, y < 1 := by
        rcases hex with ⟨x, hx, hlt⟩
        rcases List.mem_cons.mp hx with rfl | hx'
        · exact absurd hlt ha
        · exact ⟨x, hx', hlt⟩
      obtain ⟨i, hi, hbefore, hslot, heq⟩ := ih hex'
      refine ⟨i + 1, by simpa using Nat.succ_lt_succ hi, ?_, by simpa using hslot, ?_⟩
      · intro j hj hji
        cases j with
        | zero => simpa using ha
        | succ j' =>
          have hj' : j' < as.length := by simpa using hj
          have := hbefore j' hj' (by omega)
          simpa using this
      · simp [recordBg, ha, heq]

theorem parentPhase_bg_record (env : Env) (args : List String) (st : ShellState)
    (hbg : isBackground args = true) (hfork : 0 < env.forkPid) (bg2 : List Int)
    (hrec : recordBg st.bgOpen env.forkPid = some bg2) :
    parentPhase env args st =
      ({ st with bgOpen := bg2 },
        [Event.out ("background pid is " ++ toString env.forkPid ++ "\n")]) := by
  have hne : env.forkPid ≠ -1 := by omega
  simp [parentPhase, hne, hbg, hrec]

theorem parentPhase_fg (env : Env) (args : List String) (st : ShellState)
    (hbg : isBackground args = false) (hfork : env.forkPid ≠ -1) :
    parentPhase env args st =
      ((waitReport env.fgWait.1 env.fgWait.2 st).1,
        Event.waitedFg env.forkPid
          :: (waitReport env.fgWait.1 env.fgWait.2 st).2) := by
  simp [parentPhase, hbg, hfork]

theorem waitReport_exited (wpid : Int) (wstat : Nat) (st : ShellState)
    (hne : wpid ≠ -1) (hex : wifexited wstat = true) :
    waitReport wpid wstat st =
      ({ st with status := (wexitstatus wstat : Int), termination := 0 }, []) := by
  have hsig := wifexited_not_signaled wstat hex
  simp [waitReport, hne, hex, hsig]

theorem waitReport_signaled (wpid : Int) (wstat : Nat) (st : ShellState)
    (hne : wpid ≠ -1) (hsig : wifsignaled wstat = true) :
    waitReport wpid wstat st =
      ({ st with termination := (wtermsig wstat : Int) },
        [Event.out ("terminated by signal " ++ toString (wtermsig wstat) ++ "\n")]) := by
  have hex := wifsignaled_not_exited wstat hsig
  simp [waitReport, hne, hex, hsig]

theorem reapSweep_cons_ne (w : Int → Int × Nat) (slot : Int) (rest : List Int)
    (status : Int) (hs : slot ≠ -1) :
    reapSweep w (slot :: rest) status =
      ((reapStep w slot status).1
          :: (reapSweep w rest (reapStep w slot status).2.1).1,
        (reapSweep w rest (reapStep w slot status).2.1).2.1,
        (reapStep w slot status).2.2
          ++ (reapSweep w rest (reapStep w slot status).2.1).2.2) := by
  simp [reapSweep, hs]

theorem reapSweep_cons_sentinel (w : Int → Int × Nat) (rest : List Int)
    (status : Int) :
    reapSweep w (-1 :: rest) status = (-1 :: rest, status, []) := by
  simp [reapSweep]

theorem reapStep_cases (w : Int → Int × Nat) (slot status : Int) :
    (reapStep w slot status).2.1 = status ∨
      ((reapStep w slot status).2.1 = EXIT_FAILURE ∧ slot ≠ 0 ∧ (w slot).1 = -1 ∧
        (reapStep w slot status).2.2 = [Event.err "wait failed\n"]) := by
  by_cases h0 : slot = 0
  · left; simp [reapStep, h0, IS_PROCESS_FINISHED]
  · by_cases hw : (w slot).1 = -1
    · right
      refine ⟨?_, h0, hw, ?_⟩ <;> simp [reapStep, IS_PROCESS_FINISHED, h0, hw]
    · left
      by_cases hp : (w slot).1 > 0 <;>
        simp [reapStep, IS_PROCESS_FINISHED, h0, hw, hp]

theorem reapSweep_status_cases (w : Int → Int × Nat) (bg : List Int) :
    ∀ status : Int, (reapSweep w bg status).2.1 = status ∨
      (reapSweep w bg status).2.1 = EXIT_FAILURE := by
  induction bg with
  | nil => intro status; left; rfl
  | cons slot rest ih =>
    intro status
    by_cases hs : slot = -1
    · left; simp [reapSweep, hs]
    · have hred : (reapSweep w (slot :: rest) status).2.1 =
          (reapSweep w rest (reapStep w slot status).2.1).2.1 := by
        simp [reapSweep, hs]
      rw [hred]
      rcases ih ((reapStep w slot status).2.1) with h2 | h2
      · rw [h2]
        rcases reapStep_cases w slot status with h1 | ⟨h1, _⟩
        · left; exact h1
        · right; exact h1
      · right; exact h2

theorem reapSweep_status_preserved (w : Int → Int × Nat) (bg : List Int) :
    ∀ status : Int,
      (∀ p ∈ bg.takeWhile (fun x => x != -1), p ≠ 0 → (w p).1 ≠ -1) →
      (reapSweep w bg status).2.1 = status := by
  induction bg with
  | nil => intro status _; rfl
  | cons slot rest ih =>
    intro status h
    by_cases hs : slot = -1
    · simp [reapSweep, hs]
    · have htw : (slot :: rest).takeWhile (fun x => x != -1) =
          slot :: rest.takeWhile (fun x => x != -1) := by
        simp [List.takeWhile_cons, hs]
      have hstep : (reapStep w slot status).2.1 = status := by
        rcases reapStep_cases w slot status with h1 | ⟨_, hne, hw, _⟩
        · exact h1
        · exact absurd hw (h slot (by rw [htw]; exact List.mem_cons_self _ _) hne)
      have hrest : ∀ p ∈ rest.takeWhile (fun x => x != -1), p ≠ 0 → (w p).1 ≠ -1 := by
        intro p hp
        exact h p (by rw [htw]; exact List.mem_cons_of_mem _ hp)
      have hred : (reapSweep w (slot :: rest) status).2.1 =
          (reapSweep w rest (reapStep w slot status).2.1).2.1 := by
        simp [reapSweep, hs]
      rw [hred, hstep, ih status hrest]

theorem reapSweep_failure (w : Int → Int × Nat) (bg : List Int) :
    ∀ status : Int,
      (∃ p ∈ bg.takeWhile (fun x => x != -1), p ≠ 0 ∧ (w p).1 = -1) →
      (reapSweep w bg status).2.1 = EXIT_FAILURE ∧
        Event.err "wait failed\n" ∈ (reapSweep w bg status).2.2 := by
  induction bg with
  | nil => rintro status ⟨p, hp, -⟩; simp at hp
  | cons slot rest ih =>
    rintro status ⟨p, hp, hne, hw⟩
    by_cases hs : slot = -1
    · rw [List.takeWhile_cons] at hp
      simp [hs] at hp
    · have htw : (slot :: rest).takeWhile (fun x => x != -1) =
          slot :: rest.takeWhile (fun x => x != -1) := by
        simp [List.takeWhile_cons, hs]
      rw [htw] at hp
      have hred1 : (reapSweep w (slot :: rest) status).2.1 =
          (reapSweep w rest (reapStep w slot status).2.1).2.1 := by
        simp [reapSweep, hs]
      have hred2 : (reapSweep w (slot :: rest) status).2.2 =
          (reapStep w slot status).2.2
            ++ (reapSweep w rest (reapStep w slot status).2.1).2.2 := by
        simp [reapSweep, hs]
      rcases List.mem_cons.mp hp with rfl | hp'
      · have hstep : reapStep w p status =
            (p, EXIT_FAILURE, [Event.err "wait failed\n"]) := by
          simp [reapStep, IS_PROCESS_FINISHED, hne, hw]
        constructor
        · rw [hred1, hstep]
          rcases reapSweep_status_cases w rest EXIT_FAILURE with h2 | h2 <;>
            simpa using h2
        · rw [hred2, hstep]
          simp
      · obtain ⟨hst, hmem⟩ := ih ((reapStep w slot status).2.1) ⟨p, hp', hne, hw⟩
        refine ⟨by rw [hred1]; exact hst, ?_⟩
        rw [hred2]
        exact List.mem_append_right _ hmem

theorem reapSweep_stops_at_sentinel (w : Int → Int × Nat) (xs : List Int) :
    ∀ (ys : List Int) (status : Int), (-1 : Int) ∉ xs →
      reapSweep w (xs ++ -1 :: ys) status =
        ((reapSweep w xs status).1 ++ -1 :: ys, (reapSweep w xs status).2.1,
          (reapSweep w xs status).2.2) := by
  induction xs with
  | nil => intro ys status _; simp [reapSweep]
  | cons a as ih =>
    intro ys status hmem
    have ha : a ≠ -1 := fun h => hmem (by simp [h])
    have has : (-1 : Int) ∉ as := fun h => hmem (List.mem_cons_of_mem _ h)
    rw [List.cons_append, reapSweep_cons_ne w a _ status ha,
      ih ys (reapStep w a status).2.1 has,
      reapSweep_cons_ne w a as status ha]
    simp

theorem reapOnce_termination (w : Int → Int × Nat) (st : ShellState) :
    (reapOnce w st).1.termination = st.termination := rfl

theorem cmdExecute_open_failure_form (env : Env) (args : List String)
    (st : ShellState) (h : openFailure env args = true) :
    ∃ pre msg, (∀ e ∈ pre, ∃ p b, e = Event.openCall p b) ∧
      cmdExecute env args st =
        ({ st with status := EXIT_FAILURE }, pre ++ [Event.out msg]) := by
  by_cases h1 : devNullCheckFails env args = true
  · exact ⟨bgNullEvs args, "cannot open /dev/null\n",
      fun e he => mem_bgNullEvs args e he, by simp [cmdExecute, h1]⟩
  · rw [Bool.not_eq_true] at h1
    by_cases h2 : inOpenFails env args = true
    · refine ⟨bgNullEvs args ++ inRedirEvs args,
        "File Error: cannot open " ++ pathStr args ++ " for input\n", ?_,
        by simp [cmdExecute, h1, h2]⟩
      intro e he
      rcases List.mem_append.mp he with he | he
      · exact mem_bgNullEvs args e he
      · exact mem_inRedirEvs args e he
    · rw [Bool.not_eq_true] at h2
      have h3 : outOpenFails env args = true := by
        simpa [openFailure, h1, h2] using h
      refine ⟨bgNullEvs args ++ inRedirEvs args ++ outRedirEvs args,
        "File Error: cannot open " ++ pathStr args ++ " for ouput\n",
        fun e he => mem_preForkEvs args e he, by simp [cmdExecute, h1, h2, h3]⟩

theorem bg_launch_trace (env : Env) (args : List String) (st : ShellState)
    (hbg : isBackground args = true) (hopen : openFailure env args = false)
    (hfork : 0 < env.forkPid) (bg2 : List Int)
    (hrec : recordBg st.bgOpen env.forkPid = some bg2) :
    cmdExecute env args st =
      ({ st with bgOpen := bg2 },
        bgNullEvs args ++ inRedirEvs args ++ outRedirEvs args ++ [Event.forkEv]
          ++ [Event.out ("background pid is " ++ toString env.forkPid ++ "\n")]) := by
  rw [cmdExecute_success env args st hopen,
    parentPhase_bg_record env args st hbg hfork bg2 hrec]

theorem waitedFg_not_mem_launch_trace (args : List String) (pid p : Int) :
    Event.waitedFg p ∉
      bgNullEvs args ++ inRedirEvs args ++ outRedirEvs args ++ [Event.forkEv]
        ++ [Event.out ("background pid is " ++ toString pid ++ "\n")] := by
  intro hmem
  rcases List.mem_append.mp hmem with hm | hm
  · rcases List.mem_append.mp hm with hm | hm
    · obtain ⟨q, b, hpb⟩ := mem_preForkEvs args _ hm
      exact Event.noConfusion hpb
    · simp at hm
  · simp at hm

theorem waitReport_termination_nonneg (wpid : Int) (wstat : Nat)
    (st : ShellState) (h : 0 ≤ st.termination) :
    0 ≤ (waitReport wpid wstat st).1.termination := by
  unfold waitReport
  by_cases hsig : wifsignaled wstat = true <;>
    by_cases hex : wifexited wstat = true <;>
      by_cases hw : wpid = -1 <;>
        simp [hsig, hex, hw] <;> omega

/-- In every state the engine can reach, `termination` is non-negative: it
starts at 0 and is only ever overwritten with 0 or with a `WTERMSIG` value. -/
theorem termination_nonneg_invariant (env : Env) (args : List String)
    (w : Int → Int × Nat) (st : ShellState) (h : 0 ≤ st.termination) :
    0 ≤ initialState.termination ∧
    0 ≤ (cmdExecute env args st).1.termination ∧
    0 ≤ (reapOnce w st).1.termination := by
  refine ⟨le_refl 0, ?_, by rw [reapOnce_termination]; exact h⟩
  by_cases hof : openFailure env args = true
  · obtain ⟨pre, msg, -, hc⟩ := cmdExecute_open_failure_form env args st hof
    rw [hc]
    exact h
  · rw [Bool.not_eq_true] at hof
    rw [cmdExecute_success env args st hof]
    show 0 ≤ (parentPhase env args st).1.termination
    unfold parentPhase
    by_cases hf : env.forkPid = -1
    · simp only [hf]
      simpa using h
    · by_cases hbg : isBackground args = true
      · simp only [hf, hbg]
        rcases hrec : recordBg st.bgOpen env.forkPid with - | bg2 <;>
          simp only [hrec, beq_iff_eq, if_neg hf, if_pos rfl]
        · exact waitReport_termination_nonneg _ _ _ h
        · exact h
      · rw [Bool.not_eq_true] at hbg
        simp only [hf, hbg, beq_iff_eq, if_neg hf, Bool.false_eq_true, if_false]
        exact waitReport_termination_nonneg _ _ _ h

/-! ## Fixtures for concrete instantiations -/

/-- Fixture environment: every syscall succeeds, `fork` returns pid 7, the
foreground wait sees pid 7 exit normally with status 0. -/
def envOk : Env :=
  { devNullRd := 3, devNullWr := 4, inOpen := 5, outOpen := 6, forkPid := 7,
    fgWait := (7, 0), junkIn := 17, junkOut := 18, junkWpid := 5, junkWstat := 0 }

/-- Fixture environment: the foreground wait sees pid 7 killed by signal 9
(wait status 9). -/
def envFgSig : Env := { envOk with fgWait := (7, 9) }

/-- Fixture shell state: stored exit code 3, stale termination 5, Job Table
`[Running 2, Empty, Running 9, Unused]`. -/
def stW : ShellState := { status := 3, termination := 5, bgOpen := [2, 0, 9, -1] }

/-- Fixture reaper oracle: every running job has just finished with wait
status 0 (normal exit, value 0). -/
def wOk : Int → Int × Nat := fun p => (p, 0)

/-- Fixture reaper oracle: no running job has finished yet. -/
def wStay : Int → Int × Nat := fun _ => (0, 0)

/-- Fixture reaper oracle: the non-blocking wait fails. -/
def wFail : Int → Int × Nat := fun _ => (-1, 0)

/-! ## The claims -/

/-- C6: the status builtin reports a signal termination with the stored signal
number whenever `termination` is nonzero (it is never negative in reachable
states), and otherwise reports the stored exit code; right after `main`'s
initialisation both fields are 0 and `status` reports exit value 0. -/
theorem status_builtin_report :
    (∀ status termination : Int, 0 ≤ termination →
      (termination ≠ 0 →
        cmdStatus status termination =
          [Event.out ("terminated by signal " ++ toString termination ++ "\n")]) ∧
      (termination = 0 →
        cmdStatus status termination =
          [Event.out ("exit value " ++ toString status ++ "\n")])) ∧
    initialState.status = 0 ∧ initialState.termination = 0 ∧
    cmdStatus initialState.status initialState.termination =
      [Event.out "exit value 0\n"] := by
  refine ⟨?_, rfl, rfl, ?_⟩
  · intro status termination h0
    constructor
    · intro hne
      have hpos : termination > 0 := lt_of_le_of_ne h0 (Ne.symm hne)
      simp [cmdStatus, hpos]
    · intro h
      subst h
      simp [cmdStatus]
  · rfl

/-- Witness for C6 at concrete stores: `status` reports signal 9 when
`termination = 9` and exit value 7 when `termination = 0`. -/
theorem status_builtin_report_witness :
    cmdStatus 7 9 = [Event.out "terminated by signal 9\n"] ∧
    cmdStatus 7 0 = [Event.out "exit value 7\n"] :=
  ⟨(status_builtin_report.1 7 9 (by decide)).1 (by decide),
   (status_builtin_report.1 7 0 (by decide)).2 rfl⟩

/-- C5: a reap sweep never changes `termination`, and as long as no
non-blocking wait fails (every completion or still-running check) it never
changes `status` either — only foreground completions overwrite the Process
Outcome. -/
theorem reap_preserves_outcome :
    (∀ (w : Int → Int × Nat) (st : ShellState),
      (reapOnce w st).1.termination = st.termination) ∧
    (∀ (w : Int → Int × Nat) (st : ShellState),
      (∀ p ∈ st.bgOpen.takeWhile (fun x => x != -1), p ≠ 0 → (w p).1 ≠ -1) →
      (reapOnce w st).1.status = st.status) :=
  ⟨fun _ _ => rfl,
   fun w st h => reapSweep_status_preserved w st.bgOpen st.status h⟩

/-- Witness for C5: with two running jobs both completing, the sweep leaves
the stored outcome (3, 5) untouched. -/
theorem reap_preserves_outcome_witness :
    (reapOnce wOk stW).1.termination = stW.termination ∧
    (reapOnce wOk stW).1.status = stW.status :=
  ⟨reap_preserves_outcome.1 wOk stW,
   reap_preserves_outcome.2 wOk stW (by decide)⟩

/-- C10: if the non-blocking completion check of a scanned Running entry
fails (`waitpid` returns -1), the sweep reports the failure and sets `status`
to `EXIT_FAILURE` while leaving `termination` unchanged. -/
theorem reap_wait_failure_mutates_status (w : Int → Int × Nat) (st : ShellState)
    (h : ∃ p ∈ st.bgOpen.takeWhile (fun x => x != -1), p ≠ 0 ∧ (w p).1 = -1) :
    (reapOnce w st).1.status = EXIT_FAILURE ∧
    (reapOnce w st).1.termination = st.termination ∧
    Event.err "wait failed\n" ∈ (reapOnce w st).2 := by
  obtain ⟨h1, h2⟩ := reapSweep_failure w st.bgOpen st.status h
  exact ⟨h1, rfl, h2⟩

/-- Witness for C10: a failing check on the table `[2, 0, 9, -1]` sets the
stored exit code to 1, keeps `termination = 5`, and reports the failure. -/
theorem reap_wait_failure_witness :
    (reapOnce wFail stW).1.status = EXIT_FAILURE ∧
    (reapOnce wFail stW).1.termination = stW.termination ∧
    Event.err "wait failed\n" ∈ (reapOnce wFail stW).2 :=
  reap_wait_failure_mutates_status wFail stW (by decide)

/-- C4: the sweep scans from index 0 and stops at the first Unused (`-1`)
slot — slots beyond it are passed through uninspected; a Running entry whose
non-blocking check returns 0 is left unchanged; one whose check returns a
positive pid is reported and tombstoned to `IS_PROCESS_FINISHED`. -/
theorem reap_sweep_scan :
    (∀ (w : Int → Int × Nat) (xs ys : List Int) (status : Int),
      (-1 : Int) ∉ xs →
      reapSweep w (xs ++ -1 :: ys) status =
        ((reapSweep w xs status).1 ++ -1 :: ys, (reapSweep w xs status).2.1,
          (reapSweep w xs status).2.2)) ∧
    (∀ (w : Int → Int × Nat) (slot status : Int), slot ≠ -1 → slot ≠ 0 →
      (w slot).1 = 0 → reapStep w slot status = (slot, status, [])) ∧
    (∀ (w : Int → Int × Nat) (slot status : Int), slot ≠ 0 → 0 < (w slot).1 →
      reapStep w slot status =
        (IS_PROCESS_FINISHED, status, bgDoneMsgs slot (w slot).2)) := by
  refine ⟨fun w xs ys status h => reapSweep_stops_at_sentinel w xs ys status h,
    ?_, ?_⟩
  · intro w slot status h1 h0 hw
    simp [reapStep, IS_PROCESS_FINISHED, h0, hw]
  · intro w slot status h0 hw
    have hne : (w slot).1 ≠ -1 := by omega
    simp [reapStep, IS_PROCESS_FINISHED, h0, hne, hw]

/-- Witness for C4 on concrete tables: the scan ignores what follows the
sentinel, keeps a still-running slot, and tombstones a finished one. -/
theorem reap_sweep_scan_witness :
    reapSweep wOk ([2] ++ -1 :: [5]) 3 =
      ((reapSweep wOk [2] 3).1 ++ -1 :: [5], (reapSweep wOk [2] 3).2.1,
        (reapSweep wOk [2] 3).2.2) ∧
    reapStep wStay 9 3 = (9, 3, []) ∧
    reapStep wOk 2 3 = (IS_PROCESS_FINISHED, 3, bgDoneMsgs 2 0) :=
  ⟨reap_sweep_scan.1 wOk [2] [5] 3 (by decide),
   reap_sweep_scan.2.1 wStay 9 3 (by decide) (by decide) (by decide),
   reap_sweep_scan.2.2 wOk 2 3 (by decide) (by decide)⟩

/-- C1 (counterexample): at the concrete command `cat < nofile` whose
redirection target fails to open, `cmdExecute` reports the error and performs
no fork, but the Status Tracker's exit code changes from 0 to `EXIT_FAILURE`
— shell state is not left unchanged as the claim asserts. -/
theorem open_failure_counterexample :
    (cmdExecute { envOk with inOpen := -1 } ["cat", "<", "nofile"]
        { status := 0, termination := 0, bgOpen := [-1] }).1.status = EXIT_FAILURE ∧
    (cmdExecute { envOk with inOpen := -1 } ["cat", "<", "nofile"]
        { status := 0, termination := 0, bgOpen := [-1] }).1 ≠
      { status := 0, termination := 0, bgOpen := [-1] } := by
  decide

/-- C1 (amended): whenever one of the pre-fork open checks fails (redirection
target, or the null device for a background command), `cmdExecute` reports an
error, performs no fork and no wait, leaves the Job Table and `termination`
unchanged — and sets the Status Tracker's exit code to `EXIT_FAILURE`. -/
theorem open_failure_no_fork (env : Env) (args : List String) (st : ShellState)
    (h : openFailure env args = true) :
    (cmdExecute env args st).1 = { st with status := EXIT_FAILURE } ∧
    Event.forkEv ∉ (cmdExecute env args st).2 ∧
    (∀ p, Event.waitedFg p ∉ (cmdExecute env args st).2) ∧
    (∃ s, Event.out s ∈ (cmdExecute env args st).2) := by
  obtain ⟨pre, msg, hpre, hc⟩ := cmdExecute_open_failure_form env args st h
  rw [hc]
  refine ⟨rfl, ?_, ?_, ⟨msg, by simp⟩⟩
  · intro hmem
    rcases List.mem_append.mp hmem with hm | hm
    · obtain ⟨p, b, hpb⟩ := hpre _ hm
      exact Event.noConfusion hpb
    · simp at hm
  · intro p hmem
    rcases List.mem_append.mp hmem with hm | hm
    · obtain ⟨q, b, hpb⟩ := hpre _ hm
      exact Event.noConfusion hpb
    · simp at hm

/-- Witness for the amended C1 at `wc < nofile` with a failing open. -/
theorem open_failure_no_fork_witness :
    (cmdExecute { envOk with inOpen := -1 } ["wc", "<", "nofile"] stW).1 =
      { stW with status := EXIT_FAILURE } ∧
    Event.forkEv ∉ (cmdExecute { envOk with inOpen := -1 } ["wc", "<", "nofile"] stW).2 ∧
    Event.out "File Error: cannot open nofile for input\n" ∈
      (cmdExecute { envOk with inOpen := -1 } ["wc", "<", "nofile"] stW).2 := by
  obtain ⟨h1, h2, h3, -⟩ := open_failure_no_fork { envOk with inOpen := -1 }
    ["wc", "<", "nofile"] stW (by decide)
  exact ⟨h1, h2, by decide⟩

/-- The launch report format the specification claims: `"background pid P"`.
Stated from the spec's words, for comparison with the implementation's actual
launch message. -/
def specLaunchReport (p : Int) : String := "background pid " ++ toString p

/-- C2 (counterexample): at a concrete background launch (`sleep &`, fork
returning pid 7) the shell prints `"background pid is 7\n"`, which is not the
claimed format `"background pid 7"`. -/
theorem launch_message_counterexample :
    (cmdExecute envOk ["sleep", "&"]
        { status := 0, termination := 0, bgOpen := [-1] }).2 =
      [Event.openCall (some "/dev/null") false, Event.openCall (some "/dev/null") true,
        Event.forkEv, Event.out "background pid is 7\n"] ∧
    "background pid is 7\n" ≠ specLaunchReport 7 ++ "\n" := by
  decide

/-- C2 (amended): the user-visible completion/status/launch reports are
"background pid P is done: exit value V" and "background pid P is done:
terminated by signal S" from the reap sweep, "terminated by signal S" for a
signaled foreground command, "exit value V" from the status builtin on normal
exit — and "background pid is P" (not "background pid P") at background
launch. -/
theorem report_formats :
    (∀ (pid : Int) (s : Nat), wifexited s = true →
      bgDoneMsgs pid s =
        [Event.out ("background pid " ++ toString pid ++ " is done: "),
          Event.out ("exit value " ++ toString (wexitstatus s) ++ "\n")]) ∧
    (∀ (pid : Int) (s : Nat), wifsignaled s = true →
      bgDoneMsgs pid s =
        [Event.out ("background pid " ++ toString pid ++ " is done: "),
          Event.out ("terminated by signal " ++ toString (wtermsig s) ++ "\n")]) ∧
    (∀ (wpid : Int) (s : Nat) (st : ShellState), wifsignaled s = true →
      Event.out ("terminated by signal " ++ toString (wtermsig s) ++ "\n")
        ∈ (waitReport wpid s st).2) ∧
    (∀ status termination : Int, termination = 0 →
      cmdStatus status termination =
        [Event.out ("exit value " ++ toString status ++ "\n")]) ∧
    (∀ (env : Env) (args : List String) (st : ShellState),
      isBackground args = true → env.forkPid ≠ -1 →
      (parentPhase env args st).2.head? =
        some (Event.out ("background pid is " ++ toString env.forkPid ++ "\n"))) := by
  refine ⟨?_, ?_, ?_, ?_, ?_⟩
  · intro pid s hex
    have hsig := wifexited_not_signaled s hex
    simp [bgDoneMsgs, hex, hsig]
  · intro pid s hsig
    have hex := wifsignaled_not_exited s hsig
    simp [bgDoneMsgs, hex, hsig]
  · intro wpid s st hsig
    by_cases hw : wpid = -1 <;> simp [waitReport, hw, hsig]
  · intro status termination h
    subst h
    simp [cmdStatus]
  · intro env args st hbg hfork
    rw [parentPhase]
    simp only [hbg, hfork]
    rcases hrec : recordBg st.bgOpen env.forkPid with - | bg2 <;> simp [hrec, hfork]

/-- Witness for the amended C2: each report format at concrete values. -/
theorem report_formats_witness :
    bgDoneMsgs 7 512 =
      [Event.out "background pid 7 is done: ", Event.out "exit value 2\n"] ∧
    bgDoneMsgs 7 9 =
      [Event.out "background pid 7 is done: ", Event.out "terminated by signal 9\n"] ∧
    Event.out "terminated by signal 9\n" ∈ (waitReport 7 9 stW).2 ∧
    cmdStatus 5 0 = [Event.out "exit value 5\n"] ∧
    (parentPhase envOk ["sleep", "&"] stW).2.head? =
      some (Event.out "background pid is 7\n") :=
  ⟨report_formats.1 7 512 (by decide), report_formats.2.1 7 9 (by decide),
   report_formats.2.2.1 7 9 stW (by decide),
   report_formats.2.2.2.1 5 0 rfl,
   report_formats.2.2.2.2 envOk ["sleep", "&"] stW (by decide) (by decide)⟩

/-- C3: a background launch that forks successfully, with a free (Empty or
Unused) slot available, records the child's pid into the first slot holding a
value `< 1` (scanning from index 0), reports the pid, and returns without any
blocking wait. -/
theorem bg_launch_records_first_free (env : Env) (args : List String)
    (st : ShellState) (hbg : isBackground args = true)
    (hopen : openFailure env args = false) (hfork : 0 < env.forkPid)
    (hfree : ∃ x ∈ st.bgOpen, x < 1) :
    ∃ i, ∃ hi : i < st.bgOpen.length,
      (∀ j, ∀ hj : j < st.bgOpen.length, j < i → ¬ st.bgOpen.get ⟨j, hj⟩ < 1) ∧
      st.bgOpen.get ⟨i, hi⟩ < 1 ∧
      (cmdExecute env args st).1 =
        { st with bgOpen := st.bgOpen.set i env.forkPid } ∧
      Event.out ("background pid is " ++ toString env.forkPid ++ "\n")
        ∈ (cmdExecute env args st).2 ∧
      ∀ p, Event.waitedFg p ∉ (cmdExecute env args st).2 := by
  obtain ⟨i, hi, hbefore, hslot, hrec⟩ := recordBg_eq_some env.forkPid st.bgOpen hfree
  have htr := bg_launch_trace env args st hbg hopen hfork _ hrec
  rw [htr]
  exact ⟨i, hi, hbefore, hslot, rfl, by simp,
    fun p => waitedFg_not_mem_launch_trace args env.forkPid p⟩

/-- Witness for C3: `sleep &` on the table `[2, 0, 9, -1]` records pid 7 into
the first free slot (index 1) and reports it without waiting. -/
theorem bg_launch_records_witness :
    (cmdExecute envOk ["sleep", "&"] stW).1 = { stW with bgOpen := [2, 7, 9, -1] } ∧
    Event.out "background pid is 7\n" ∈ (cmdExecute envOk ["sleep", "&"] stW).2 ∧
    Event.waitedFg 7 ∉ (cmdExecute envOk ["sleep", "&"] stW).2 := by
  obtain ⟨i, hi, hbef, hslot, h1, h2, h3⟩ :=
    bg_launch_records_first_free envOk ["sleep", "&"] stW (by decide) (by decide)
      (by decide) (by decide)
  exact ⟨by decide, h2, h3 7⟩

/-- C7: a foreground launch performs a blocking wait on exactly the forked
child; a normal exit stores the exit code and clears any prior termination
signal; a signal death stores the signal number and reports it immediately. -/
theorem fg_wait_outcome (env : Env) (args : List String) (st : ShellState)
    (hbg : isBackground args = false) (hopen : openFailure env args = false)
    (hfork : 0 < env.forkPid) (hw : env.fgWait.1 = env.forkPid) :
    Event.waitedFg env.forkPid ∈ (cmdExecute env args st).2 ∧
    (wifexited env.fgWait.2 = true →
      (cmdExecute env args st).1 =
        { st with status := (wexitstatus env.fgWait.2 : Int), termination := 0 }) ∧
    (wifsignaled env.fgWait.2 = true →
      (cmdExecute env args st).1 =
        { st with termination := (wtermsig env.fgWait.2 : Int) } ∧
      Event.out ("terminated by signal " ++ toString (wtermsig env.fgWait.2) ++ "\n")
        ∈ (cmdExecute env args st).2) := by
  have hne : env.forkPid ≠ -1 := by omega
  have hwne : env.fgWait.1 ≠ -1 := by omega
  have hc := cmdExecute_success env args st hopen
  have hpp := parentPhase_fg env args st hbg hne
  rw [hc, hpp]
  refine ⟨by simp, ?_, ?_⟩
  · intro hex
    rw [waitReport_exited _ _ _ hwne hex]
  · intro hsig
    rw [waitReport_signaled _ _ _ hwne hsig]
    exact ⟨rfl, by simp⟩

/-- Witness for C7: a foreground command killed by signal 9 stores
`termination = 9` and reports it; the parent waited on pid 7. -/
theorem fg_wait_outcome_witness :
    Event.waitedFg 7 ∈ (cmdExecute envFgSig ["killed"] stW).2 ∧
    (cmdExecute envFgSig ["killed"] stW).1 = { stW with termination := 9 } ∧
    Event.out "terminated by signal 9\n" ∈ (cmdExecute envFgSig ["killed"] stW).2 := by
  obtain ⟨h1, -, h3⟩ := fg_wait_outcome envFgSig ["killed"] stW
    (by decide) (by decide) (by decide) (by decide)
  obtain ⟨h31, h32⟩ := h3 (by decide)
  exact ⟨h1, h31, h32⟩

/-- C8: for a command with a redirection operator, the opened target path is
the cell at fixed argument position 2 (wherever the operator sits), and the
child's exec argv is just the command name; a command with no `<`, `>` or `&`
token execs with its full argument vector verbatim. -/
theorem redirection_fixed_position :
    (∀ (env : Env) (args : List String) (st : ShellState),
      isInputRedirected args = true → devNullCheckFails env args = false →
      Event.openCall (argAt args 2) false ∈ (cmdExecute env args st).2) ∧
    (∀ (env : Env) (args : List String) (st : ShellState),
      isOutputRedirected args = true → devNullCheckFails env args = false →
      inOpenFails env args = false →
      Event.openCall (argAt args 2) true ∈ (cmdExecute env args st).2) ∧
    (∀ (args : List String) (a0 : String),
      (isInputRedirected args || isOutputRedirected args) = true →
      argAt args 0 = some a0 → childArgv args = [a0]) ∧
    (∀ args : List String, "<" ∉ args → ">" ∉ args → "&" ∉ args →
      childArgv args = args) := by
  refine ⟨?_, ?_, ?_, ?_⟩
  · intro env args st hin h1
    by_cases h2 : inOpenFails env args = true
    · simp [cmdExecute, h1, h2, inRedirEvs, hin]
    · rw [Bool.not_eq_true] at h2
      by_cases h3 : outOpenFails env args = true
      · simp [cmdExecute, h1, h2, h3, inRedirEvs, hin]
      · rw [Bool.not_eq_true] at h3
        simp [cmdExecute, h1, h2, h3, inRedirEvs, hin]
  · intro env args st hout h1 h2
    by_cases h3 : outOpenFails env args = true
    · simp [cmdExecute, h1, h2, h3, outRedirEvs, hout]
    · rw [Bool.not_eq_true] at h3
      simp [cmdExecute, h1, h2, h3, outRedirEvs, hout]
  · intro args a0 hred h0
    simp [childArgv, hred, h0]
  · intro args hlt hgt hamp
    have h1 : isInputRedirected args = false := by
      unfold isInputRedirected
      cases hc : args.contains "<" with
      | false => rfl
      | true =>
        obtain ⟨a, ha, hbeq⟩ := List.contains_iff_exists_mem_beq.mp hc
        exact absurd ((eq_of_beq hbeq) ▸ ha) hlt
    have h2 : isOutputRedirected args = false := by
      unfold isOutputRedirected
      cases hc : args.contains ">" with
      | false => rfl
      | true =>
        obtain ⟨a, ha, hbeq⟩ := List.contains_iff_exists_mem_beq.mp hc
        exact absurd ((eq_of_beq hbeq) ▸ ha) hgt
    have h4 : argsAfterBg args = args := by
      unfold argsAfterBg
      rw [List.takeWhile_eq_self_iff]
      intro x hx
      simp only [bne_iff_ne, ne_eq]
      intro heq
      exact hamp (heq ▸ hx)
    simp [childArgv, h1, h2, h4]

/-- Witness for C8: `wc < f` opens the path at position 2 and execs `["wc"]`;
`ls -l` execs its vector verbatim. -/
theorem redirection_fixed_position_witness :
    Event.openCall (argAt ["wc", "<", "f"] 2) false
      ∈ (cmdExecute envOk ["wc", "<", "f"] stW).2 ∧
    Event.openCall (argAt ["wc", ">", "g"] 2) true
      ∈ (cmdExecute envOk ["wc", ">", "g"] stW).2 ∧
    childArgv ["wc", "<", "f"] = ["wc"] ∧
    childArgv ["ls", "-l"] = ["ls", "-l"] :=
  ⟨redirection_fixed_position.1 envOk ["wc", "<", "f"] stW (by decide) (by decide),
   redirection_fixed_position.2.1 envOk ["wc", ">", "g"] stW (by decide)
     (by decide) (by decide),
   redirection_fixed_position.2.2.1 ["wc", "<", "f"] "wc" (by decide) (by decide),
   redirection_fixed_position.2.2.2 ["ls", "-l"] (by decide) (by decide) (by decide)⟩

set_option maxRecDepth 10000 in
/-- C9 (counterexample): with a full Job Table (all 100 slots Running), a
background launch does not return from the record loop; the shared wait code
runs on the never-assigned wait variables — with junk wait status 9 the launch
prints "terminated by signal 9" and clobbers `termination`. -/
theorem bg_full_table_counterexample :
    (cmdExecute { envOk with junkWstat := 9 } ["sleep", "&"]
        { status := 0, termination := 0,
          bgOpen := List.replicate 100 2 }).1.termination = 9 ∧
    Event.out "terminated by signal 9\n" ∈
      (cmdExecute { envOk with junkWstat := 9 } ["sleep", "&"]
        { status := 0, termination := 0, bgOpen := List.replicate 100 2 }).2 := by
  decide

/-- C9 (amended): for every background launch with a free (Empty or Unused)
Job Table slot, the parent returns from the record branch: the result does not
depend on the junk in the never-assigned wait-result variables, and no
blocking wait happens.  (With a full table the shared wait code is reached —
see the counterexample.) -/
theorem bg_launch_no_wait_vars (env : Env) (args : List String) (st : ShellState)
    (hbg : isBackground args = true) (hopen : openFailure env args = false)
    (hfork : 0 < env.forkPid) (hfree : ∃ x ∈ st.bgOpen, x < 1) :
    (∀ a b, cmdExecute { env with junkWpid := a, junkWstat := b } args st =
      cmdExecute env args st) ∧
    ∀ p, Event.waitedFg p ∉ (cmdExecute env args st).2 := by
  obtain ⟨i, hi, -, -, hrec⟩ := recordBg_eq_some env.forkPid st.bgOpen hfree
  have htr := bg_launch_trace env args st hbg hopen hfork _ hrec
  constructor
  · intro a b
    have htr' := bg_launch_trace { env with junkWpid := a, junkWstat := b }
      args st hbg hopen hfork _ hrec
    rw [htr, htr']
  · rw [htr]
    exact fun p => waitedFg_not_mem_launch_trace args env.forkPid p

/-- Witness for the amended C9: on the table `[2, 0, 9, -1]`, replacing the
junk wait variables changes nothing, and no wait event occurs. -/
theorem bg_launch_no_wait_vars_witness :
    cmdExecute { envOk with junkWpid := -1, junkWstat := 9 } ["sleep", "&"] stW =
      cmdExecute envOk ["sleep", "&"] stW ∧
    Event.waitedFg 7 ∉ (cmdExecute envOk ["sleep", "&"] stW).2 := by
  obtain ⟨h1, h2⟩ := bg_launch_no_wait_vars envOk ["sleep", "&"] stW
    (by decide) (by decide) (by decide) (by decide)
  exact ⟨h1 (-1) 9, h2 7⟩

end BabySh
